import Mathlib

/-!
Shallow embedding of the FRED economic dashboard (src/app.py): the metric
store (save/load/add/remove handlers) and the series client
(FredAPI.get_series_data), together with the summary-table sequential-change
computation. Python strings are Lean strings; Python dicts are association
lists in insertion order; the JSON file content is a `Json` value (Python's
json.dump/json.load round-trips these values exactly); numeric observation
values are rationals.
-/

namespace FredDash

/-! ### Python string primitives -/

/-- Python whitespace for str.strip (ASCII part): space, tab, LF, CR, VT, FF. -/
def isPySpace (c : Char) : Bool :=
  decide (c.toNat = 32 ∨ c.toNat = 9 ∨ c.toNat = 10 ∨ c.toNat = 13 ∨
    c.toNat = 11 ∨ c.toNat = 12)

/-- Python str.strip on a character list: whitespace removed from both ends. -/
def pyStripList (l : List Char) : List Char :=
  ((l.dropWhile isPySpace).reverse.dropWhile isPySpace).reverse

/-- Python str.strip. -/
def pyStrip (s : String) : String := ⟨pyStripList s.toList⟩

/-- Python str.upper on ASCII letters, as in the series-id inputs. -/
def pyUpper (s : String) : String := ⟨s.toList.map Char.toUpper⟩

/-- `new_metric.strip().upper()`, the normalisation applied to every
series-id input (app.py lines 297-301 and 467). -/
def normalizeId (s : String) : String := pyUpper (pyStrip s)

/-! ### Python dict operations on association lists -/

/-- Python `d.get(k)` on a dict modelled as an insertion-ordered
association list. -/
def lookupKey {α : Type} : List (String × α) → String → Option α
  | [], _ => none
  | (k', v) :: rest, k => if k' = k then some v else lookupKey rest k

/-- Python `d[k] = v`: replace in place when the key exists, else append. -/
def pyDictInsert {α : Type} : List (String × α) → String → α → List (String × α)
  | [], k, v => [(k, v)]
  | (k', v') :: rest, k, v =>
    if k' = k then (k, v) :: rest else (k', v') :: pyDictInsert rest k v

/-- Python `del d[k]` guarded by `if k in d`: drop the key's entry. -/
def pyDictErase {α : Type} : List (String × α) → String → List (String × α)
  | [], _ => []
  | (k', v') :: rest, k =>
    if k' = k then pyDictErase rest k else (k', v') :: pyDictErase rest k

/-! ### The persisted JSON file -/

/-- JSON values as produced and consumed by json.dump / json.load for the
saved_metrics.json file. -/
inductive Json where
  | null : Json
  | str (s : String) : Json
  | num (n : Int) : Json
  | arr (elems : List Json) : Json
  | obj (fields : List (String × Json)) : Json

/-- Python truthiness of a JSON value, as used by `metrics_groups or` in
save_metrics_to_file. -/
def Json.pyTruthy : Json → Bool
  | .null => false
  | .str s => !s.isEmpty
  | .num n => decide (n ≠ 0)
  | .arr l => !l.isEmpty
  | .obj f => !f.isEmpty

/-- save_metrics_to_file (app.py 15-26): the JSON object written to
saved_metrics.json. A falsy metrics_groups argument is replaced by the
empty dict before serialisation. -/
def save_metrics_to_file (metrics metrics_names metrics_groups : Json) : Json :=
  Json.obj
    [("saved_metrics", metrics),
     ("saved_metrics_names", metrics_names),
     ("saved_metrics_groups",
       if metrics_groups.pyTruthy then metrics_groups else Json.obj [])]

/-- The state of the saved_metrics.json file as seen by
load_metrics_from_file: absent, unparseable, or parsed JSON. -/
inductive FileState where
  | missing : FileState
  | corrupt : FileState
  | good (j : Json) : FileState

/-- load_metrics_from_file (app.py 28-42): each of the three keys is read
with `data.get` and an empty default; a missing or unreadable file, and a
parsed value that is not an object (where `.get` raises and the handler
catches), all yield the all-empty triple. -/
def load_metrics_from_file : FileState → Json × Json × Json
  | .good (Json.obj fields) =>
      ((lookupKey fields "saved_metrics").getD (Json.arr []),
       (lookupKey fields "saved_metrics_names").getD (Json.obj []),
       (lookupKey fields "saved_metrics_groups").getD (Json.obj []))
  | _ => (Json.arr [], Json.obj [], Json.obj [])

/-- Encoding of the in-memory identifier list as JSON. -/
def encStrList (l : List String) : Json := Json.arr (l.map Json.str)

/-- Encoding of an in-memory name or group dict as JSON. -/
def encStrMap (m : List (String × String)) : Json :=
  Json.obj (m.map (fun p => (p.1, Json.str p.2)))

/-! ### The metric store -/

/-- The three session-state structures of app.py: the ordered identifier
list and the two side dicts. -/
structure MetricStore where
  saved_metrics : List String
  saved_metrics_names : List (String × String)
  saved_metrics_groups : List (String × String)
deriving DecidableEq

/-- Outcome signalled by the Save handler of Add New Metric: st.success,
st.warning (duplicate), or st.error (blank id). -/
inductive AddSignal where
  | added : AddSignal
  | duplicate : AddSignal
  | emptyInput : AddSignal
deriving DecidableEq

/-- The display name recorded for a new metric (app.py 474-482): the
fetched series title when truthy, else the identifier itself; `none`
models a failed get_series_info call or an absent title. -/
def fetchedName (m : String) (title : Option String) : String :=
  match title with
  | some t => if t = "" then m else t
  | none => m

/-- The Save handler of Add New Metric (app.py 465-494). `title` is the
outcome of the get_series_info lookup for the normalised id. The group is
recorded only when the supplied value is truthy and strips to a non-empty
label, and the stored label is the stripped one (app.py 470-472). -/
def add_metric (s : MetricStore) (new_metric : String)
    (metric_group : Option String) (title : Option String) :
    MetricStore × AddSignal :=
  if pyStrip new_metric = "" then (s, .emptyInput)
  else if normalizeId new_metric ∈ s.saved_metrics then (s, .duplicate)
  else
    ({ saved_metrics := s.saved_metrics ++ [normalizeId new_metric],
       saved_metrics_names :=
         pyDictInsert s.saved_metrics_names (normalizeId new_metric)
           (fetchedName (normalizeId new_metric) title),
       saved_metrics_groups :=
         match metric_group with
         | some g =>
             if pyStrip g = "" then s.saved_metrics_groups
             else pyDictInsert s.saved_metrics_groups (normalizeId new_metric)
               (pyStrip g)
         | none => s.saved_metrics_groups },
     .added)

/-- Outcome of the delete handler: the updated store, or the ValueError
that Python's list.remove raises on an absent element. -/
inductive RemoveResult where
  | ok (s : MetricStore) : RemoveResult
  | valueError : RemoveResult
deriving DecidableEq

/-- The delete-button handler (app.py 543-556): list.remove on the ordered
list (raising ValueError when absent), then membership-guarded `del` on
both dicts. -/
def remove_metric (s : MetricStore) (metric : String) : RemoveResult :=
  if metric ∈ s.saved_metrics then
    .ok { saved_metrics := s.saved_metrics.erase metric,
          saved_metrics_names := pyDictErase s.saved_metrics_names metric,
          saved_metrics_groups := pyDictErase s.saved_metrics_groups metric }
  else .valueError

/-- Modelled from the spec: app.py has no named group_of operation; its
display code (lines 532-538 and 564-570) reads
saved_metrics_groups.get(metric) and renders an absent entry as having no
group. The spec's Metric Store contract names this group_of, returning
the stored label or "ungrouped". -/
def group_of (s : MetricStore) (id : String) : String :=
  (lookupKey s.saved_metrics_groups id).getD "ungrouped"

/-! ### The series client -/

/-- One raw row of the observations array: `none` models a non-numeric
value string (FRED's "." missing marker), which pd.to_numeric with
errors coerce turns into NaN. Dates are abstract ordered keys. -/
structure RawObservation where
  date : Nat
  value : Option ℚ
deriving DecidableEq

/-- One row of the cleaned dataframe: date and numeric value. -/
structure Observation where
  date : Nat
  value : ℚ
deriving DecidableEq

/-- Outcome of the HTTP exchange inside get_series_data: transport error
(requests raises), processing error (e.g. unparseable JSON body), a JSON
body without the observations key, or a body with the observations rows. -/
inductive FredResponse where
  | transportError (msg : String) : FredResponse
  | processError (msg : String) : FredResponse
  | noObservationsKey : FredResponse
  | ok (observations : List RawObservation) : FredResponse

/-- Date order on cleaned rows. -/
def obsDateLe (a b : Observation) : Prop := a.date ≤ b.date

instance : DecidableRel obsDateLe := fun a b => Nat.decLe a.date b.date

instance : IsTotal Observation obsDateLe := ⟨fun a b => Nat.le_total a.date b.date⟩

instance : IsTrans Observation obsDateLe := ⟨fun _ _ _ => Nat.le_trans⟩

/-- The dataframe pipeline of get_series_data (app.py 113-127): coerce
values to numeric, drop the missing rows, sort ascending by date. -/
def processObservations (raw : List RawObservation) : List Observation :=
  List.insertionSort obsDateLe
    (raw.filterMap (fun r => r.value.map (fun v => ⟨r.date, v⟩)))

/-- FredAPI.get_series_data (app.py 82-138) as a function of the HTTP
outcome: the cleaned rows plus the optional st.error message. Every
response constructor returns normally: no exception escapes the method. -/
def get_series_data : FredResponse → List Observation × Option String
  | .transportError msg => ([], some ("Error fetching data: " ++ msg))
  | .processError msg => ([], some ("Error processing data: " ++ msg))
  | .noObservationsKey => ([], none)
  | .ok raw => (processObservations raw, none)

/-- Responses on which get_series_data has no data to return. -/
def FredResponse.isFailure : FredResponse → Bool
  | .ok _ => false
  | _ => true

/-! ### The summary-table sequential change -/

/-- The Sequential Change cell of the summary table: a percentage, an
absolute difference, or the N/A marker. -/
inductive ChangeResult where
  | percent (x : ℚ) : ChangeResult
  | absolute (x : ℚ) : ChangeResult
  | notApplicable : ChangeResult
deriving DecidableEq

/-- The Sequential Change computation of the summary table
(app.py 831-906). `values` is the date-ascending value column of the
metric dataframe, so latest is the last entry and previous the one before
it; `use_percentage` is the checkbox. Fewer than two rows yields the N/A
marker (line 904); with percentage mode off or a zero previous value the
absolute difference is produced (lines 849-854). -/
def sequentialChange (values : List ℚ) (use_percentage : Bool) : ChangeResult :=
  if 2 ≤ values.length then
    if use_percentage = true ∧ values.getD (values.length - 2) 0 ≠ 0 then
      ChangeResult.percent
        ((values.getD (values.length - 1) 0 - values.getD (values.length - 2) 0)
          / values.getD (values.length - 2) 0 * 100)
    else
      ChangeResult.absolute
        (values.getD (values.length - 1) 0 - values.getD (values.length - 2) 0)
  else ChangeResult.notApplicable

/-! ### C5: persist-then-load round trip -/

/-- C5: for every store state (including empty, single-entry, and entries
with absent name or group), persisting the store and then loading it
reproduces exactly the same ordered identifier list, name map, and group
map. -/
theorem save_load_roundtrip (metrics : List String)
    (names groups : List (String × String)) :
    load_metrics_from_file (.good (save_metrics_to_file
        (encStrList metrics) (encStrMap names) (encStrMap groups)))
      = (encStrList metrics, encStrMap names, encStrMap groups) := by
  cases groups <;> rfl

/-! ### C9: load tolerates independently missing keys -/

/-- The persisted object restricted to the keys that are present. -/
def optField (k : String) (v : Option Json) : List (String × Json) :=
  match v with
  | some j => [(k, j)]
  | none => []

/-- C9: load tolerates each of the three top-level keys being
independently absent from an otherwise well-formed persisted JSON object:
a missing identifier-list key yields the empty list, a missing name-map
or group-map key yields the empty map, and present keys are returned as
stored. -/
theorem load_missing_keys_defaults (m n g : Option Json) :
    load_metrics_from_file (.good (Json.obj
        (optField "saved_metrics" m ++ optField "saved_metrics_names" n ++
          optField "saved_metrics_groups" g)))
      = (m.getD (Json.arr []), n.getD (Json.obj []), g.getD (Json.obj [])) := by
  cases m <;> cases n <;> cases g <;> rfl

/-! ### C4: fetch failures yield the empty sequence, not an exception -/

/-- C4: get_series_data is total over every response outcome (no exception
passes its boundary) and on any transport failure or malformed response it
returns the empty sequence; the error is surfaced only as the returned
user-visible message. -/
theorem get_series_data_empty_on_failure (r : FredResponse)
    (h : r.isFailure = true) : (get_series_data r).1 = [] := by
  cases r with
  | transportError msg => rfl
  | processError msg => rfl
  | noObservationsKey => rfl
  | ok raw => simp [FredResponse.isFailure] at h

/-- Witness for C4 at a concrete transport failure. -/
theorem get_series_data_empty_on_failure_witness :
    (get_series_data (.transportError "connection refused")).1 = [] :=
  get_series_data_empty_on_failure (.transportError "connection refused") rfl

/-! ### C1: sequential change with zero previous value -/

/-- C1 counterexample: with observations [0, 5] in percentage mode the
code yields the absolute difference 5.00, not the N/A marker; the claim
that the result is "N/A" is false (though no divide-by-zero occurs). -/
theorem sequentialChange_zero_prev_counterexample :
    sequentialChange [0, 5] true = ChangeResult.absolute 5 ∧
      sequentialChange [0, 5] true ≠ ChangeResult.notApplicable := by
  have hcond : ¬(true = true ∧
      ([0, 5] : List ℚ).getD (([0, 5] : List ℚ).length - 2) 0 ≠ 0) := by
    rintro ⟨-, hne⟩
    exact hne rfl
  unfold sequentialChange
  rw [if_pos (by decide), if_neg hcond]
  norm_num
  exact fun h => ChangeResult.noConfusion h

/-- C1 amended: for every series with at least two observations, when
percentage mode is selected and the previous observation's value is 0,
the sequential-change computation does not fail with a divide-by-zero and
does not produce the N/A marker either: it falls back to the absolute
difference, latest minus previous. -/
theorem sequentialChange_zero_prev (values : List ℚ)
    (h2 : 2 ≤ values.length)
    (hprev : values.getD (values.length - 2) 0 = 0) :
    sequentialChange values true
        = ChangeResult.absolute (values.getD (values.length - 1) 0) ∧
      sequentialChange values true ≠ ChangeResult.notApplicable := by
  have hcond : ¬(true = true ∧ values.getD (values.length - 2) 0 ≠ 0) := by
    rintro ⟨-, hne⟩
    exact hne hprev
  unfold sequentialChange
  rw [if_pos h2, if_neg hcond, hprev, sub_zero]
  exact ⟨rfl, fun h => ChangeResult.noConfusion h⟩

/-- Witness for C1 amended at the concrete series [3, 0, 7]. -/
theorem sequentialChange_zero_prev_witness :
    sequentialChange [3, 0, 7] true = ChangeResult.absolute 7 ∧
      sequentialChange [3, 0, 7] true ≠ ChangeResult.notApplicable := by
  exact sequentialChange_zero_prev [3, 0, 7] (by decide) rfl

/-! ### C2: adding GDP to the empty store -/

/-- C2 counterexample: after add("GDP") on the empty store the name map is
not empty: the handler always records a display name for the new
identifier (the fetched title, or the identifier itself when the metadata
lookup fails, app.py 474-482), so with a failed lookup the name map is
[("GDP", "GDP")], not the empty map the claim states. -/
theorem add_gdp_counterexample :
    (add_metric ⟨[], [], []⟩ "GDP" none none).1.saved_metrics_names
        = [("GDP", "GDP")] ∧
      (add_metric ⟨[], [], []⟩ "GDP" none none).1.saved_metrics_names
        ≠ ([] : List (String × String)) := by
  decide

/-- C2 amended: starting from the empty store, add("GDP") with no group
yields ordered identifier list ["GDP"], a name map with the single entry
mapping "GDP" to the fetched title (or to "GDP" itself when the lookup
fails or yields no title), an empty group map, the added signal, and
group_of reports "GDP" as "ungrouped". -/
theorem add_gdp_from_empty (title : Option String) :
    (add_metric ⟨[], [], []⟩ "GDP" none title).1.saved_metrics = ["GDP"] ∧
      (add_metric ⟨[], [], []⟩ "GDP" none title).1.saved_metrics_names
        = [("GDP", fetchedName "GDP" title)] ∧
      (add_metric ⟨[], [], []⟩ "GDP" none title).1.saved_metrics_groups = [] ∧
      (add_metric ⟨[], [], []⟩ "GDP" none title).2 = AddSignal.added ∧
      group_of (add_metric ⟨[], [], []⟩ "GDP" none title).1 "GDP"
        = "ungrouped" :=
  ⟨rfl, rfl, rfl, rfl, rfl⟩

/-! ### C3: fetched observations are sorted and numeric-only -/

/-- A row is in the cleaned output exactly when the source held a numeric
row with that date and value. -/
theorem mem_processObservations {raw : List RawObservation} {o : Observation} :
    o ∈ processObservations raw ↔
      (⟨o.date, some o.value⟩ : RawObservation) ∈ raw := by
  unfold processObservations
  rw [List.mem_insertionSort, List.mem_filterMap]
  constructor
  · rintro ⟨⟨d, v⟩, hr, hmap⟩
    cases v with
    | none => simp at hmap
    | some q =>
      simp only [Option.map_some', Option.some.injEq] at hmap
      rw [← hmap]
      exact hr
  · intro hr
    exact ⟨⟨o.date, some o.value⟩, hr, rfl⟩

/-- C3: for every source row list (any ordering, any mix of numeric and
non-numeric raw values), the rows returned by get_series_data are sorted
ascending by date and every returned row stems from a source row whose raw
value was numeric: the non-numeric rows are dropped, never interpolated. -/
theorem get_series_data_sorted_numeric (raw : List RawObservation) :
    List.Sorted obsDateLe (get_series_data (.ok raw)).1 ∧
      ∀ o ∈ (get_series_data (.ok raw)).1,
        (⟨o.date, some o.value⟩ : RawObservation) ∈ raw := by
  constructor
  · exact List.sorted_insertionSort obsDateLe _
  · intro o ho
    exact mem_processObservations.1 ho

/-- Witness for C3: a returned row of a concrete fixture (dates 3 then 1,
with one non-numeric row) traces back to its numeric source row. -/
theorem get_series_data_sorted_numeric_witness :
    (⟨3, some 7⟩ : RawObservation) ∈
      [(⟨3, some 7⟩ : RawObservation), ⟨1, none⟩] :=
  (get_series_data_sorted_numeric [⟨3, some 7⟩, ⟨1, none⟩]).2 ⟨3, 7⟩
    (List.Mem.head _)

/-! ### C6: re-adding a present identifier is a rejected no-op -/

/-- C6: for every store state and every identifier already present in the
ordered sequence (an identifier in the sense of the spec's data model: a
non-empty token fixed by the strip-and-uppercase normalisation), add of
that identifier returns the store unchanged - ordered sequence, name map
and group map, any newly supplied group included - and signals
duplication instead of appending a second copy. -/
theorem add_duplicate_noop (s : MetricStore) (id : String)
    (grp title : Option String) (hid : normalizeId id = id) (hne : id ≠ "")
    (hmem : id ∈ s.saved_metrics) :
    add_metric s id grp title = (s, AddSignal.duplicate) := by
  have hstrip : ¬ pyStrip id = "" := by
    intro h0
    apply hne
    rw [← hid]
    unfold normalizeId
    rw [h0]
    rfl
  unfold add_metric
  rw [if_neg hstrip, hid, if_pos hmem]

/-- Witness for C6: re-adding "GDP", even with a new group, is rejected
and leaves the concrete store untouched. -/
theorem add_duplicate_noop_witness :
    add_metric ⟨["GDP"], [("GDP", "Gross Domestic Product")], []⟩ "GDP"
        (some "Macro") none
      = (⟨["GDP"], [("GDP", "Gross Domestic Product")], []⟩,
         AddSignal.duplicate) :=
  add_duplicate_noop _ "GDP" (some "Macro") none (by decide) (by decide)
    (by decide)

/-! ### C7: remove of present and absent identifiers -/

/-- Unfolding equation for lookupKey on a cons cell. -/
theorem lookupKey_cons {α : Type} (k' : String) (v : α)
    (rest : List (String × α)) (k : String) :
    lookupKey ((k', v) :: rest) k
      = if k' = k then some v else lookupKey rest k := rfl

/-- Unfolding equation for pyDictErase on a cons cell. -/
theorem pyDictErase_cons {α : Type} (k' : String) (v : α)
    (rest : List (String × α)) (k : String) :
    pyDictErase ((k', v) :: rest) k
      = if k' = k then pyDictErase rest k
        else (k', v) :: pyDictErase rest k := rfl

/-- After deleting a key, looking it up yields nothing. -/
theorem lookupKey_pyDictErase_self {α : Type} (l : List (String × α))
    (k : String) : lookupKey (pyDictErase l k) k = none := by
  induction l with
  | nil => rfl
  | cons p rest ih =>
    obtain ⟨k', v⟩ := p
    rw [pyDictErase_cons]
    by_cases h : k' = k
    · rw [if_pos h]
      exact ih
    · rw [if_neg h, lookupKey_cons, if_neg h]
      exact ih

/-- Deleting a key leaves every other key's lookup unchanged. -/
theorem lookupKey_pyDictErase_ne {α : Type} (l : List (String × α))
    (k x : String) (hx : x ≠ k) :
    lookupKey (pyDictErase l k) x = lookupKey l x := by
  induction l with
  | nil => rfl
  | cons p rest ih =>
    obtain ⟨k', v⟩ := p
    rw [pyDictErase_cons, lookupKey_cons]
    by_cases h : k' = k
    · have hne : ¬ k' = x := fun hkx => hx (by rw [← hkx]; exact h)
      rw [if_pos h, if_neg hne]
      exact ih
    · rw [if_neg h, lookupKey_cons]
      by_cases hkx : k' = x
      · rw [if_pos hkx, if_pos hkx]
      · rw [if_neg hkx, if_neg hkx]
        exact ih

/-- C7 counterexample: removing an identifier absent from the store is not
a silent no-op: Python's list.remove raises ValueError (here: the empty
store and "GDP"), where the claim asserts an unchanged store and no
error. -/
theorem remove_absent_counterexample :
    remove_metric ⟨[], [], []⟩ "GDP" = RemoveResult.valueError ∧
      remove_metric ⟨[], [], []⟩ "GDP" ≠ RemoveResult.ok ⟨[], [], []⟩ := by
  decide

/-- C7 amended: when the identifier is present, remove deletes it from the
ordered sequence (its first occurrence; under the store invariant that
identifiers are unique it is gone entirely) and from both maps, leaving
every other entry unchanged; when it is absent, the handler raises
ValueError rather than acting as a no-op (that path is unreachable in the
UI, which offers deletion only for present identifiers). -/
theorem remove_metric_spec (s : MetricStore) (id : String) :
    (id ∈ s.saved_metrics →
      remove_metric s id = RemoveResult.ok
          ⟨s.saved_metrics.erase id,
           pyDictErase s.saved_metrics_names id,
           pyDictErase s.saved_metrics_groups id⟩ ∧
        (s.saved_metrics.Nodup → id ∉ s.saved_metrics.erase id) ∧
        lookupKey (pyDictErase s.saved_metrics_names id) id = none ∧
        lookupKey (pyDictErase s.saved_metrics_groups id) id = none ∧
        ∀ x, x ≠ id →
          ((x ∈ s.saved_metrics.erase id ↔ x ∈ s.saved_metrics) ∧
            lookupKey (pyDictErase s.saved_metrics_names id) x
              = lookupKey s.saved_metrics_names x ∧
            lookupKey (pyDictErase s.saved_metrics_groups id) x
              = lookupKey s.saved_metrics_groups x)) ∧
      (id ∉ s.saved_metrics → remove_metric s id = RemoveResult.valueError) := by
  constructor
  · intro hmem
    refine ⟨?_, ?_, lookupKey_pyDictErase_self _ _,
      lookupKey_pyDictErase_self _ _, ?_⟩
    · unfold remove_metric
      rw [if_pos hmem]
    · intro hnd hid
      exact ((hnd.mem_erase_iff.1 hid).1) rfl
    · intro x hx
      exact ⟨List.mem_erase_of_ne hx, lookupKey_pyDictErase_ne _ _ _ hx,
        lookupKey_pyDictErase_ne _ _ _ hx⟩
  · intro habs
    unfold remove_metric
    rw [if_neg habs]

/-- Witness for C7 amended: removing "GDP" from a concrete two-entry
store. -/
theorem remove_metric_spec_witness :
    remove_metric ⟨["GDP", "UNRATE"],
        [("GDP", "Gross Domestic Product"), ("UNRATE", "Unemployment Rate")],
        [("GDP", "Macro")]⟩ "GDP"
      = RemoveResult.ok ⟨["UNRATE"], [("UNRATE", "Unemployment Rate")], []⟩ :=
  ((remove_metric_spec ⟨["GDP", "UNRATE"],
      [("GDP", "Gross Domestic Product"), ("UNRATE", "Unemployment Rate")],
      [("GDP", "Macro")]⟩ "GDP").1 (by decide)).1

/-! ### Character and strip lemmas -/

/-- Converting a valid code point to a character and back is the
identity. -/
theorem char_toNat_ofNat_valid {n : Nat} (h : n < 55296) :
    (Char.ofNat n).toNat = n := by
  have hv : n.isValidChar := Or.inl h
  unfold Char.ofNat
  rw [dif_pos hv]
  rfl

/-- Code-point arithmetic of Char.toUpper: lowercase ASCII letters move
down by 32, everything else is unchanged. -/
theorem toUpper_toNat_eq (c : Char) : (Char.toUpper c).toNat
    = if 97 ≤ c.toNat ∧ c.toNat ≤ 122 then c.toNat - 32 else c.toNat := by
  simp only [Char.toUpper, ge_iff_le]
  by_cases h : 97 ≤ c.toNat ∧ c.toNat ≤ 122
  · rw [if_pos h, if_pos h]
    exact char_toNat_ofNat_valid (by omega)
  · rw [if_neg h, if_neg h]

/-- Uppercasing never yields an ASCII lowercase letter. -/
theorem toUpper_not_lowercase (c : Char) :
    ¬(97 ≤ (Char.toUpper c).toNat ∧ (Char.toUpper c).toNat ≤ 122) := by
  rw [toUpper_toNat_eq]
  by_cases h : 97 ≤ c.toNat ∧ c.toNat ≤ 122
  · rw [if_pos h]
    omega
  · rw [if_neg h]
    exact h

/-- Uppercasing preserves whitespace-ness. -/
theorem isPySpace_toUpper (c : Char) :
    isPySpace (Char.toUpper c) = isPySpace c := by
  unfold isPySpace
  rw [decide_eq_decide, toUpper_toNat_eq]
  by_cases h : 97 ≤ c.toNat ∧ c.toNat ≤ 122
  · rw [if_pos h]
    omega
  · rw [if_neg h]

/-- Lowercasing preserves whitespace-ness. -/
theorem isPySpace_toLower (c : Char) :
    isPySpace (Char.toLower c) = isPySpace c := by
  unfold isPySpace
  rw [decide_eq_decide]
  simp only [Char.toLower, ge_iff_le]
  by_cases h : 65 ≤ c.toNat ∧ c.toNat ≤ 90
  · rw [if_pos h, char_toNat_ofNat_valid (by omega)]
    omega
  · rw [if_neg h]

/-- Uppercasing a lowercased character equals uppercasing it directly. -/
theorem toUpper_toLower (c : Char) :
    Char.toUpper (Char.toLower c) = Char.toUpper c := by
  simp only [Char.toLower, Char.toUpper, ge_iff_le]
  by_cases h : 65 ≤ c.toNat ∧ c.toNat ≤ 90
  · rw [if_pos h, char_toNat_ofNat_valid (by omega)]
    rw [if_pos (by omega : 97 ≤ c.toNat + 32 ∧ c.toNat + 32 ≤ 122)]
    rw [if_neg (by omega : ¬(97 ≤ c.toNat ∧ c.toNat ≤ 122))]
    rw [Nat.add_sub_cancel, Char.ofNat_toNat]
  · rw [if_neg h]

/-- pyStripList is right-strip after left-strip. -/
theorem pyStripList_eq (l : List Char) :
    pyStripList l = List.rdropWhile isPySpace (l.dropWhile isPySpace) := rfl

/-- Right-stripping ignores an all-matching suffix. -/
theorem rdropWhile_append_of_pos {α : Type} (p : α → Bool) (x w : List α)
    (h : ∀ c ∈ w, p c = true) :
    List.rdropWhile p (x ++ w) = List.rdropWhile p x := by
  unfold List.rdropWhile
  rw [List.reverse_append,
    List.dropWhile_append_of_pos (fun a ha => h a (List.mem_reverse.1 ha))]

/-- A prefix of an already left-stripped list is left-stripped. -/
theorem dropWhile_of_prefix_dropWhile {α : Type} (p : α → Bool)
    (l y : List α) (hy : y <+: l.dropWhile p) : y.dropWhile p = y := by
  cases y with
  | nil => rfl
  | cons a t =>
    have h0 := List.head?_dropWhile_not p l
    obtain ⟨r, hr⟩ := hy
    rw [← hr] at h0
    simp only [List.cons_append, List.head?_cons] at h0
    simp [List.dropWhile_cons, h0]

/-- Stripping both ends is idempotent. -/
theorem pyStripList_idem (l : List Char) :
    pyStripList (pyStripList l) = pyStripList l := by
  have h1 : (pyStripList l).dropWhile isPySpace = pyStripList l :=
    dropWhile_of_prefix_dropWhile isPySpace l _
      (by rw [pyStripList_eq]
          exact List.rdropWhile_prefix isPySpace (l.dropWhile isPySpace))
  rw [pyStripList_eq (pyStripList l), h1, pyStripList_eq l,
    List.rdropWhile_idempotent]

/-- Surrounding all-whitespace padding does not change the strip. -/
theorem pyStripList_pad (w1 w2 l : List Char)
    (h1 : ∀ c ∈ w1, isPySpace c = true) (h2 : ∀ c ∈ w2, isPySpace c = true) :
    pyStripList (w1 ++ (l ++ w2)) = pyStripList l := by
  rw [pyStripList_eq, pyStripList_eq, List.dropWhile_append_of_pos h1,
    List.dropWhile_append]
  by_cases hempty : (l.dropWhile isPySpace).isEmpty = true
  · rw [if_pos hempty]
    have hl : l.dropWhile isPySpace = [] := List.isEmpty_iff.1 hempty
    have hw2 : w2.dropWhile isPySpace = [] := List.dropWhile_eq_nil_iff.2 h2
    rw [hl, hw2]
  · rw [if_neg hempty]
    exact rdropWhile_append_of_pos _ _ _ h2

/-- Stripping commutes with a character map that preserves
whitespace-ness. -/
theorem pyStripList_map (f : Char → Char)
    (hf : ∀ c, isPySpace (f c) = isPySpace c) (l : List Char) :
    pyStripList (l.map f) = (pyStripList l).map f := by
  have hpf : isPySpace ∘ f = isPySpace := funext hf
  unfold pyStripList
  rw [List.dropWhile_map, hpf, ← List.map_reverse, List.dropWhile_map, hpf,
    ← List.map_reverse]

/-- Python str.strip is idempotent. -/
theorem pyStrip_idem (s : String) : pyStrip (pyStrip s) = pyStrip s :=
  congrArg String.mk (pyStripList_idem s.toList)

/-! ### C8: identifier normalisation in add -/

/-- C8 counterexample: interior whitespace survives the strip-and-upper
normalisation, so a stored identifier is not necessarily whitespace-free:
adding " gd p " stores "GD P", which contains a space. -/
theorem add_normalizes_counterexample :
    (add_metric ⟨[], [], []⟩ " gd p " none none).1.saved_metrics = ["GD P"] ∧
      ' ' ∈ "GD P".toList := by
  decide

/-- C8 amended: add normalises its identifier argument by stripping
surrounding whitespace and uppercasing before both the duplicate check
and the insertion, so every identifier stored by add contains no ASCII
lowercase letter and no leading or trailing whitespace (interior
whitespace is preserved), and inputs differing only in case or in
surrounding whitespace normalise to the same identifier. -/
theorem add_normalizes (s : MetricStore) (inp : String)
    (grp title : Option String) :
    ((add_metric s inp grp title).2 = AddSignal.duplicate ↔
      (¬ pyStrip inp = "" ∧ normalizeId inp ∈ s.saved_metrics)) ∧
    ((add_metric s inp grp title).2 = AddSignal.added →
      (add_metric s inp grp title).1.saved_metrics
        = s.saved_metrics ++ [normalizeId inp]) ∧
    (∀ c ∈ (normalizeId inp).toList, ¬(97 ≤ c.toNat ∧ c.toNat ≤ 122)) ∧
    pyStrip (normalizeId inp) = normalizeId inp ∧
    (∀ w1 w2 : String, (∀ c ∈ w1.toList, isPySpace c = true) →
      (∀ c ∈ w2.toList, isPySpace c = true) →
      normalizeId (w1 ++ inp ++ w2) = normalizeId inp) ∧
    normalizeId ⟨inp.toList.map Char.toLower⟩ = normalizeId inp := by
  refine ⟨?_, ?_, ?_, ?_, ?_, ?_⟩
  · unfold add_metric
    split_ifs with h1 h2
    · simp [h1]
    · simp [h1, h2]
    · simp [h1, h2]
  · unfold add_metric
    split_ifs with h1 h2
    · simp
    · simp
    · intro _
      rfl
  · intro c hc
    obtain ⟨c', _, hcc⟩ := List.mem_map.1 hc
    rw [← hcc]
    exact toUpper_not_lowercase c'
  · have h : pyStripList ((pyStripList inp.toList).map Char.toUpper)
        = (pyStripList inp.toList).map Char.toUpper := by
      rw [pyStripList_map Char.toUpper isPySpace_toUpper, pyStripList_idem]
    exact congrArg String.mk h
  · intro w1 w2 h1 h2
    have ht : (w1 ++ inp ++ w2).toList
        = w1.toList ++ (inp.toList ++ w2.toList) := by
      show (w1 ++ inp ++ w2).data = w1.data ++ (inp.data ++ w2.data)
      rw [String.data_append, String.data_append, List.append_assoc]
    have h : pyStripList (w1 ++ inp ++ w2).toList = pyStripList inp.toList := by
      rw [ht]
      exact pyStripList_pad _ _ _ h1 h2
    exact congrArg String.mk (congrArg (List.map Char.toUpper) h)
  · have h : (pyStripList (inp.toList.map Char.toLower)).map Char.toUpper
        = (pyStripList inp.toList).map Char.toUpper := by
      rw [pyStripList_map Char.toLower isPySpace_toLower, List.map_map,
        show Char.toUpper ∘ Char.toLower = Char.toUpper from
          funext toUpper_toLower]
    exact congrArg String.mk h

/-- Witness for C8 amended: the padding clause at a concrete padded
lowercase input. -/
theorem add_normalizes_witness :
    normalizeId (" " ++ "gdp" ++ "  ") = normalizeId "gdp" :=
  ((add_normalizes ⟨[], [], []⟩ "gdp" none none).2.2.2.2.1) " " "  "
    (by decide) (by decide)

/-! ### C10: group labels recorded by add are stripped and non-blank -/

/-- Unfolding equation for pyDictInsert on a cons cell. -/
theorem pyDictInsert_cons {α : Type} (k' : String) (v' : α)
    (rest : List (String × α)) (k : String) (v : α) :
    pyDictInsert ((k', v') :: rest) k v
      = if k' = k then (k, v) :: rest
        else (k', v') :: pyDictInsert rest k v := rfl

/-- Every entry after a dict insert is an old entry or the new pair. -/
theorem mem_pyDictInsert {α : Type} {l : List (String × α)} {k : String}
    {v : α} {p : String × α} (hp : p ∈ pyDictInsert l k v) :
    p ∈ l ∨ p = (k, v) := by
  induction l with
  | nil =>
    right
    simpa [pyDictInsert] using hp
  | cons q rest ih =>
    obtain ⟨k', v'⟩ := q
    rw [pyDictInsert_cons] at hp
    by_cases h : k' = k
    · rw [if_pos h] at hp
      rcases List.mem_cons.1 hp with h1 | h2
      · right
        exact h1
      · left
        exact List.mem_cons_of_mem _ h2
    · rw [if_neg h] at hp
      rcases List.mem_cons.1 hp with h1 | h2
      · left
        rw [h1]
        exact List.mem_cons_self _ _
      · rcases ih h2 with ha | hb
        · left
          exact List.mem_cons_of_mem _ ha
        · right
          exact hb

/-- The group map after add: unchanged, or extended with the stripped
non-blank label under the normalised identifier. -/
theorem add_metric_groups_cases (s : MetricStore) (inp : String)
    (grp title : Option String) :
    (add_metric s inp grp title).1.saved_metrics_groups
        = s.saved_metrics_groups ∨
      ∃ g, grp = some g ∧ ¬ pyStrip g = "" ∧
        (add_metric s inp grp title).1.saved_metrics_groups
          = pyDictInsert s.saved_metrics_groups (normalizeId inp)
              (pyStrip g) := by
  unfold add_metric
  split_ifs with h1 h2
  · left
    rfl
  · left
    rfl
  · cases grp with
    | none =>
      left
      rfl
    | some g =>
      by_cases hg : pyStrip g = ""
      · left
        simp [hg]
      · right
        exact ⟨g, rfl, hg, by simp [hg]⟩

/-- C10: assuming every group label in the store strips to a non-empty
string, the same holds after any add; a supplied group that is empty
after stripping produces no group-map entry; and any entry added is the
stripped label of the supplied group. -/
theorem add_group_labels (s : MetricStore) (inp : String)
    (grp title : Option String)
    (hs : ∀ p ∈ s.saved_metrics_groups, ¬ pyStrip p.2 = "") :
    (∀ p ∈ (add_metric s inp grp title).1.saved_metrics_groups,
        ¬ pyStrip p.2 = "") ∧
      (∀ g, grp = some g → pyStrip g = "" →
        (add_metric s inp grp title).1.saved_metrics_groups
          = s.saved_metrics_groups) ∧
      (∀ p ∈ (add_metric s inp grp title).1.saved_metrics_groups,
        p ∈ s.saved_metrics_groups ∨
          ∃ g, grp = some g ∧ p.2 = pyStrip g) := by
  refine ⟨?_, ?_, ?_⟩
  · intro p hp
    rcases add_metric_groups_cases s inp grp title with hcase | ⟨g, _, hgne, heq⟩
    · rw [hcase] at hp
      exact hs p hp
    · rw [heq] at hp
      rcases mem_pyDictInsert hp with hmem | hpe
      · exact hs p hmem
      · rw [hpe]
        intro hbad
        exact hgne ((pyStrip_idem g).symm.trans hbad)
  · intro g hg hstrip
    subst hg
    unfold add_metric
    split_ifs with h1 h2
    · rfl
    · rfl
    · simp [hstrip]
  · intro p hp
    rcases add_metric_groups_cases s inp grp title with hcase | ⟨g, hgeq, _, heq⟩
    · rw [hcase] at hp
      left
      exact hp
    · rw [heq] at hp
      rcases mem_pyDictInsert hp with hmem | hpe
      · left
        exact hmem
      · right
        exact ⟨g, hgeq, by rw [hpe]⟩

/-- Witness for C10: a whitespace-only group input leaves the concrete
group map untouched. -/
theorem add_group_labels_witness :
    (add_metric ⟨["X"], [], [("X", "Macro")]⟩ "GDP" (some "   ")
        none).1.saved_metrics_groups
      = [("X", "Macro")] :=
  ((add_group_labels ⟨["X"], [], [("X", "Macro")]⟩ "GDP" (some "   ") none
      (by decide)).2.1) "   " rfl (by decide)

end FredDash
